import Mathlib

/-!
Verification of the silence-trimming planner of `auto_editor.py`.

The timeline transformer `iterate_silence_segments` is embedded as a pure
Lean function over `Int` (Python integers), with the moviepy/pydub side
effects abstracted: an emitted video clip `video.subclip(a/1000, b/1000)`
is recorded as the millisecond pair `(a, b)`, and an audio slice
`audio_segment[a:b]` as the pair `(a, b)` (the final slice
`audio_segment[last_end:]` as `(last_end, audio_len)`).  The guard
`last_end / 1000 < end_clip / 1000` compares two exact integer quotients
scaled by the same positive constant, so it is embedded as
`last_end < end_clip`.

The orchestrator `edit_video_and_audio` is embedded as a function from the
outcomes of its external collaborators (which steps raise, the user's
answer, whether `os.remove` raises) to the observable run outcome: whether
the cleanup block at the end of the function was reached, whether the
cleanup warning was printed, and which exception (if any) propagated out
of the function.  Python semantics: an uncaught exception aborts the
function at the raising statement, and the cleanup `try` block is NOT a
`finally`, so it only runs if control reaches it.
-/

namespace AutoEditor

/-- The three integer settings the planner reads
(`SILENCE_THRESHOLD`, `PADDING_LEFT`, `PADDING_RIGHT`). -/
structure Config where
  silence_threshold : Int
  padding_left : Int
  padding_right : Int
deriving DecidableEq

/-- The loop state of `iterate_silence_segments`: `last_end`, the `clips`
list (millisecond bounds of each `video.subclip`), the `adjusted_audio`
(as the list of slice bounds concatenated into it), and `silence_amount`. -/
structure WalkState where
  last_end : Int
  clips : List (Int × Int)
  adjusted_audio : List (Int × Int)
  silence_amount : Int
deriving DecidableEq

/-- One iteration of the `for start, end in silent_ranges` loop of
`iterate_silence_segments` (lines 59-76 of `auto_editor.py`). -/
def step (cfg : Config) (pretend : Bool) (st : WalkState) (r : Int × Int) : WalkState :=
  let start := r.1
  let stop := r.2
  let end_clip := max st.last_end (start - cfg.padding_left)
  let clips :=
    if st.last_end < end_clip ∧ pretend = false then
      st.clips ++ [(st.last_end, end_clip)]
    else st.clips
  let adjusted_audio :=
    if st.last_end < end_clip ∧ pretend = false then
      st.adjusted_audio ++ [(st.last_end, max st.last_end (start - cfg.padding_left))]
    else st.adjusted_audio
  let silence_duration := stop - end_clip
  if cfg.silence_threshold < silence_duration then
    { last_end := stop - cfg.padding_right
      clips := clips
      adjusted_audio := adjusted_audio
      silence_amount := st.silence_amount + ((stop - cfg.padding_right) - end_clip) }
  else
    { last_end := end_clip
      clips := clips
      adjusted_audio := adjusted_audio
      silence_amount := st.silence_amount }

/-- `iterate_silence_segments` (lines 47-82 of `auto_editor.py`):
fold the loop body over the silence list starting from
`last_end = 0`, `clips = []`, empty audio, `silence_amount = 0`; when not
in pretend mode, append the final clip `(last_end, video_duration)` and
the trailing audio slice `(last_end, audio_len)`.  Returns
`(clips, adjusted_audio, silence_amount)`. -/
def iterate_silence_segments (cfg : Config) (silent_ranges : List (Int × Int))
    (video_duration audio_len : Int) (pretend : Bool) :
    List (Int × Int) × List (Int × Int) × Int :=
  let st := silent_ranges.foldl (step cfg pretend) ⟨0, [], [], 0⟩
  if pretend then
    (st.clips, st.adjusted_audio, st.silence_amount)
  else
    (st.clips ++ [(st.last_end, video_duration)],
     st.adjusted_audio ++ [(st.last_end, audio_len)],
     st.silence_amount)

/-- A silence list is well formed from lower bound `lb`: each interval has
`start ≤ end`, intervals ascend and do not overlap, and the first start is
at least `lb` (the spec data model: ascending, non-overlapping, pre-sorted). -/
def SortedFrom (lb : Int) : List (Int × Int) → Prop
  | [] => True
  | r :: rest => lb ≤ r.1 ∧ r.1 ≤ r.2 ∧ SortedFrom r.2 rest

instance sortedFromDecidable : (rs : List (Int × Int)) → (lb : Int) → Decidable (SortedFrom lb rs)
  | [], _ => isTrue trivial
  | r :: rest, lb =>
      have : Decidable (SortedFrom r.2 rest) := sortedFromDecidable rest r.2
      inferInstanceAs (Decidable (lb ≤ r.1 ∧ r.1 ≤ r.2 ∧ SortedFrom r.2 rest))

/-- Every silence interval ends no later than `dur`. -/
def EndsLE (dur : Int) (rs : List (Int × Int)) : Prop := ∀ r ∈ rs, r.2 ≤ dur

instance endsLEDecidable (dur : Int) (rs : List (Int × Int)) : Decidable (EndsLE dur rs) :=
  inferInstanceAs (Decidable (∀ r ∈ rs, r.2 ≤ dur))

/-- The binding output invariant of the spec: keep segments are pairwise
non-overlapping and ascending, of non-negative length, each contained in
`[0, dur]`. -/
def SegsOK (dur : Int) (segs : List (Int × Int)) : Prop :=
  List.Pairwise (fun a b : Int × Int => a.2 ≤ b.1) segs ∧
  ∀ s ∈ segs, 0 ≤ s.1 ∧ s.1 ≤ s.2 ∧ s.2 ≤ dur

instance segsOKDecidable (dur : Int) (segs : List (Int × Int)) : Decidable (SegsOK dur segs) :=
  inferInstanceAs (Decidable (_ ∧ _))

/-- The steps of `edit_video_and_audio` that call an external collaborator
which may raise (in source order): `VideoFileClip`, `silence.detect_silence`,
`concatenate_videoclips`, `adjusted_audio.export`, `AudioFileClip`,
`final_video.write_videofile`. -/
inductive OrchStep
  | loadVideo
  | detectSilence
  | concatClips
  | exportAudio
  | loadEditedAudio
  | writeVideo
deriving DecidableEq

/-- The behaviour of the external collaborators and of the user during one
run of `edit_video_and_audio`: which collaborator call raises, whether the
user answers `Y`, and whether `os.remove` in the cleanup block raises
`OSError`. -/
structure Collaborators where
  loadFails : Bool
  detectFails : Bool
  userAccepts : Bool
  concatFails : Bool
  exportFails : Bool
  loadEditedFails : Bool
  writeFails : Bool
  removeFails : Bool
deriving DecidableEq

/-- The observable outcome of one run of `edit_video_and_audio`:
whether the cleanup `try` block at lines 118-124 was reached (removal of
the two temp files attempted), whether the cleanup warning was printed,
and which exception (if any) propagated out of the function. -/
structure RunOutcome where
  cleanupAttempted : Bool
  cleanupWarning : Bool
  fatalError : Option OrchStep
deriving DecidableEq

/-- `edit_video_and_audio` (lines 84-124 of `auto_editor.py`), embedded as
straight-line control flow over the collaborators' outcomes.  An uncaught
exception aborts the function where it is raised; the cleanup block is a
plain trailing `try`, not a `finally`, so it runs only when control
reaches it, and its `except OSError` turns a removal failure into a
printed warning. -/
def edit_video_and_audio (c : Collaborators) : RunOutcome :=
  if c.loadFails then ⟨false, false, some .loadVideo⟩
  else if c.detectFails then ⟨false, false, some .detectSilence⟩
  else
    -- pretend-mode iterate_silence_segments, the printed estimate and the
    -- prompt raise nothing
    if c.userAccepts then
      -- materializing iterate_silence_segments raises nothing
      if c.concatFails then ⟨false, false, some .concatClips⟩
      else if c.exportFails then ⟨false, false, some .exportAudio⟩
      else if c.loadEditedFails then ⟨false, false, some .loadEditedAudio⟩
      else if c.writeFails then ⟨false, false, some .writeVideo⟩
      else ⟨true, c.removeFails, none⟩
    else ⟨true, c.removeFails, none⟩

/-! ### Characterizations of one loop iteration -/

lemma step_last_end (cfg : Config) (p : Bool) (st : WalkState) (r : Int × Int) :
    (step cfg p st r).last_end =
      if cfg.silence_threshold < r.2 - max st.last_end (r.1 - cfg.padding_left)
      then r.2 - cfg.padding_right
      else max st.last_end (r.1 - cfg.padding_left) := by
  simp only [step]
  split <;> rfl

lemma step_silence_amount (cfg : Config) (p : Bool) (st : WalkState) (r : Int × Int) :
    (step cfg p st r).silence_amount =
      if cfg.silence_threshold < r.2 - max st.last_end (r.1 - cfg.padding_left)
      then st.silence_amount + ((r.2 - cfg.padding_right) - max st.last_end (r.1 - cfg.padding_left))
      else st.silence_amount := by
  simp only [step]
  split <;> rfl

lemma step_clips (cfg : Config) (p : Bool) (st : WalkState) (r : Int × Int) :
    (step cfg p st r).clips =
      if st.last_end < max st.last_end (r.1 - cfg.padding_left) ∧ p = false
      then st.clips ++ [(st.last_end, max st.last_end (r.1 - cfg.padding_left))]
      else st.clips := by
  simp only [step]
  split <;> rfl

/-! ### The segment invariant (claim C1) -/

/-- Invariant carried through the planning walk: `last_end` stays in
`[0, dur]`, the clips emitted so far are pairwise ordered, within bounds,
and all end at or before `last_end`. -/
def StInv (dur : Int) (st : WalkState) : Prop :=
  0 ≤ st.last_end ∧ st.last_end ≤ dur ∧
  List.Pairwise (fun a b : Int × Int => a.2 ≤ b.1) st.clips ∧
  (∀ c ∈ st.clips, 0 ≤ c.1 ∧ c.1 ≤ c.2 ∧ c.2 ≤ dur) ∧
  (∀ c ∈ st.clips, c.2 ≤ st.last_end)

lemma step_inv (cfg : Config) (dur : Int)
    (hpl : 0 ≤ cfg.padding_left) (hpr : 0 ≤ cfg.padding_right)
    (hprt : cfg.padding_right ≤ cfg.silence_threshold)
    (st : WalkState) (r : Int × Int) (hr1 : r.1 ≤ r.2) (hr2 : r.2 ≤ dur)
    (h : StInv dur st) : StInv dur (step cfg false st r) := by
  obtain ⟨h0, hdur, hpw, hbd, hle⟩ := h
  have hecl : st.last_end ≤ max st.last_end (r.1 - cfg.padding_left) := le_max_left _ _
  have hecd : max st.last_end (r.1 - cfg.padding_left) ≤ dur :=
    max_le hdur (by linarith)
  have hnew : max st.last_end (r.1 - cfg.padding_left) ≤ (step cfg false st r).last_end := by
    rw [step_last_end]
    split
    · linarith
    · exact le_refl _
  have hmono : st.last_end ≤ (step cfg false st r).last_end := le_trans hecl hnew
  refine ⟨le_trans h0 hmono, ?_, ?_, ?_, ?_⟩
  · rw [step_last_end]
    split
    · linarith
    · exact hecd
  · rw [step_clips]
    split
    · refine (List.pairwise_append).mpr ⟨hpw, List.pairwise_singleton _ _, ?_⟩
      intro a ha b hb
      rw [List.mem_singleton] at hb
      subst hb
      exact hle a ha
    · exact hpw
  · rw [step_clips]
    split
    · intro c hc
      rcases List.mem_append.mp hc with hc | hc
      · exact hbd c hc
      · rw [List.mem_singleton] at hc
        subst hc
        exact ⟨h0, hecl, hecd⟩
    · exact hbd
  · rw [step_clips]
    split
    · intro c hc
      rcases List.mem_append.mp hc with hc | hc
      · exact le_trans (hle c hc) hmono
      · rw [List.mem_singleton] at hc
        subst hc
        exact hnew
    · intro c hc
      exact le_trans (hle c hc) hmono

lemma foldl_inv (cfg : Config) (dur : Int)
    (hpl : 0 ≤ cfg.padding_left) (hpr : 0 ≤ cfg.padding_right)
    (hprt : cfg.padding_right ≤ cfg.silence_threshold) :
    ∀ (rs : List (Int × Int)) (st : WalkState),
      (∀ r ∈ rs, r.1 ≤ r.2 ∧ r.2 ≤ dur) → StInv dur st →
      StInv dur (List.foldl (step cfg false) st rs) := by
  intro rs
  induction rs with
  | nil => intro st _ h; exact h
  | cons r rest ih =>
      intro st hrs h
      simp only [List.foldl_cons]
      exact ih _ (fun x hx => hrs x (List.mem_cons_of_mem _ hx))
        (step_inv cfg dur hpl hpr hprt st r
          (hrs r (List.mem_cons_self _ _)).1 (hrs r (List.mem_cons_self _ _)).2 h)

lemma sortedFrom_wf : ∀ (rs : List (Int × Int)) (lb : Int),
    SortedFrom lb rs → ∀ r ∈ rs, r.1 ≤ r.2 := by
  intro rs
  induction rs with
  | nil => intro lb _ r hr; cases hr
  | cons a rest ih =>
      intro lb h r hr
      rcases List.mem_cons.mp hr with hr | hr
      · subst hr; exact h.2.1
      · exact ih a.2 h.2.2 r hr

lemma sortedFrom_mono : ∀ (rs : List (Int × Int)) (lb lb' : Int),
    lb' ≤ lb → SortedFrom lb rs → SortedFrom lb' rs
  | [], _, _, _, _ => trivial
  | _ :: _, _, _, h, hs => ⟨le_trans h hs.1, hs.2.1, hs.2.2⟩

/-! ### The removed-silence accumulator (claims C3, C4, C10) -/

/-- With `padding_left = 0` and a sorted silence list, the walk removes,
for each silence `(s, e)` longer than the threshold, exactly
`(e - padding_right) - s` milliseconds; `cutSum` is that per-interval sum. -/
def cutSum (t pr : Int) : List (Int × Int) → Int
  | [] => 0
  | r :: rest => (if t < r.2 - r.1 then (r.2 - pr) - r.1 else 0) + cutSum t pr rest

lemma foldl_amount_eq (t pr : Int) (hpr : 0 ≤ pr) :
    ∀ (rs : List (Int × Int)) (st : WalkState), SortedFrom st.last_end rs →
      (List.foldl (step ⟨t, 0, pr⟩ true) st rs).silence_amount
        = st.silence_amount + cutSum t pr rs := by
  intro rs
  induction rs with
  | nil => intro st _; simp [cutSum]
  | cons r rest ih =>
      intro st hs
      obtain ⟨hlb, hse, hrest⟩ := hs
      have hec : max st.last_end (r.1 - (0 : Int)) = r.1 := by
        rw [sub_zero]; exact max_eq_right hlb
      simp only [List.foldl_cons]
      have hle : (step ⟨t, 0, pr⟩ true st r).last_end =
          if t < r.2 - r.1 then r.2 - pr else r.1 := by
        rw [step_last_end]
        simp only [hec]
      have ham : (step ⟨t, 0, pr⟩ true st r).silence_amount =
          st.silence_amount + (if t < r.2 - r.1 then (r.2 - pr) - r.1 else 0) := by
        rw [step_silence_amount]
        simp only [hec]
        split
        · rfl
        · rw [add_zero]
      by_cases hcut : t < r.2 - r.1
      · have hsorted : SortedFrom (step ⟨t, 0, pr⟩ true st r).last_end rest := by
          rw [hle, if_pos hcut]
          exact sortedFrom_mono rest r.2 (r.2 - pr) (by linarith) hrest
        rw [ih _ hsorted, ham, if_pos hcut]
        simp only [cutSum, if_pos hcut]
        ring
      · have hsorted : SortedFrom (step ⟨t, 0, pr⟩ true st r).last_end rest := by
          rw [hle, if_neg hcut]
          exact sortedFrom_mono rest r.2 r.1 hse hrest
        rw [ih _ hsorted, ham, if_neg hcut]
        simp only [cutSum, if_neg hcut]
        ring

lemma cutSum_antitone (t1 t2 pr : Int) (hpr : pr ≤ t1) (h12 : t1 ≤ t2) :
    ∀ rs, cutSum t2 pr rs ≤ cutSum t1 pr rs := by
  intro rs
  induction rs with
  | nil => exact le_refl _
  | cons r rest ih =>
      simp only [cutSum]
      have hhead : (if t2 < r.2 - r.1 then (r.2 - pr) - r.1 else 0)
          ≤ (if t1 < r.2 - r.1 then (r.2 - pr) - r.1 else 0) := by
        by_cases h2 : t2 < r.2 - r.1
        · rw [if_pos h2, if_pos (lt_of_le_of_lt h12 h2)]
        · rw [if_neg h2]
          by_cases h1 : t1 < r.2 - r.1
          · rw [if_pos h1]; linarith
          · rw [if_neg h1]
      linarith

lemma step_pretend_agnostic (cfg : Config) (p q : Bool) (st st' : WalkState) (r : Int × Int)
    (hle : st.last_end = st'.last_end) (ham : st.silence_amount = st'.silence_amount) :
    (step cfg p st r).last_end = (step cfg q st' r).last_end ∧
    (step cfg p st r).silence_amount = (step cfg q st' r).silence_amount := by
  rw [step_last_end, step_last_end, step_silence_amount, step_silence_amount, hle, ham]
  exact ⟨rfl, rfl⟩

lemma foldl_pretend_agnostic (cfg : Config) (p q : Bool) :
    ∀ (rs : List (Int × Int)) (st st' : WalkState),
      st.last_end = st'.last_end → st.silence_amount = st'.silence_amount →
      (List.foldl (step cfg p) st rs).silence_amount
        = (List.foldl (step cfg q) st' rs).silence_amount := by
  intro rs
  induction rs with
  | nil => intro st st' _ h; exact h
  | cons r rest ih =>
      intro st st' hle ham
      simp only [List.foldl_cons]
      obtain ⟨hl, ha⟩ := step_pretend_agnostic cfg p q st st' r hle ham
      exact ih _ _ hl ha

lemma iterate_materialize_clips (cfg : Config) (rs : List (Int × Int)) (dur aL : Int) :
    (iterate_silence_segments cfg rs dur aL false).1 =
      (List.foldl (step cfg false) ⟨0, [], [], 0⟩ rs).clips
        ++ [((List.foldl (step cfg false) ⟨0, [], [], 0⟩ rs).last_end, dur)] := rfl

lemma iterate_amount (cfg : Config) (rs : List (Int × Int)) (dur aL : Int) (p : Bool) :
    (iterate_silence_segments cfg rs dur aL p).2.2 =
      (List.foldl (step cfg p) ⟨0, [], [], 0⟩ rs).silence_amount := by
  cases p <;> rfl

/-! ### Claim theorems -/

/-- Claim C1, as stated, is false: with the non-negative configuration
`threshold = 50, padding_left = 0, padding_right = 250`, the sorted silence
list `[(0, 100)]` (end `100 ≤ duration 3000`) makes the walk set
`last_end = 100 - 250 = -150`, so the emitted keep segments are
`[(-150, 3000)]`, and the segment `(-150, 3000)` is not contained in
`[0, 3000]`. -/
theorem C1_counterexample :
    (iterate_silence_segments ⟨50, 0, 250⟩ [(0, 100)] 3000 3000 false).1 = [(-150, 3000)] ∧
    ¬ SegsOK 3000 [((-150 : Int), (3000 : Int))] := by decide

/-- Claim C1 (amended): for every sorted, non-overlapping silence list with
all ends at most `duration` (`duration ≥ 0`, a Millisecond) and every
non-negative configuration in which additionally
`padding_right ≤ silence_threshold`, the keep segments of the materializing
walk (loop segments plus the final `[last_end, duration)` segment) are
pairwise non-overlapping, ascending, of non-negative length, and each
contained in `[0, duration]`. -/
theorem iterate_keep_segments_invariant (cfg : Config) (rs : List (Int × Int)) (dur aL : Int)
    (hd : 0 ≤ dur)
    (hpl : 0 ≤ cfg.padding_left) (hpr : 0 ≤ cfg.padding_right)
    (_ht : 0 ≤ cfg.silence_threshold)
    (hprt : cfg.padding_right ≤ cfg.silence_threshold)
    (hs : SortedFrom 0 rs) (he : EndsLE dur rs) :
    SegsOK dur (iterate_silence_segments cfg rs dur aL false).1 := by
  have hinv := foldl_inv cfg dur hpl hpr hprt rs ⟨0, [], [], 0⟩
    (fun r hr => ⟨sortedFrom_wf rs 0 hs r hr, he r hr⟩)
    ⟨le_refl 0, hd, List.Pairwise.nil,
      fun c hc => absurd hc (List.not_mem_nil c),
      fun c hc => absurd hc (List.not_mem_nil c)⟩
  obtain ⟨h0, hdur, hpw, hbd, hle⟩ := hinv
  rw [iterate_materialize_clips]
  constructor
  · refine (List.pairwise_append).mpr ⟨hpw, List.pairwise_singleton _ _, ?_⟩
    intro a ha b hb
    rw [List.mem_singleton] at hb
    subst hb
    exact hle a ha
  · intro sgm hsgm
    rcases List.mem_append.mp hsgm with hsgm | hsgm
    · exact hbd sgm hsgm
    · rw [List.mem_singleton] at hsgm
      subst hsgm
      exact ⟨h0, hdur, le_refl dur⟩

/-- Claim C1 witness: the amended theorem applied at the spec's own boundary
example. -/
theorem iterate_keep_segments_invariant_witness :
    SegsOK 3000 ((iterate_silence_segments ⟨700, 250, 250⟩ [(1000, 2000)] 3000 3000 false).1) :=
  iterate_keep_segments_invariant ⟨700, 250, 250⟩ [(1000, 2000)] 3000 3000
    (by decide) (by decide) (by decide) (by decide) (by decide) (by decide) (by decide)

/-- Claim C2, as stated, is false: on `[(1000, 2000)]` with
`threshold = 700, padding_left = 250, padding_right = 250, duration = 3000`,
the walk removes the span from `end_clip = 750` to `last_end = 1750`, so
`silence_amount = 1000`, not `500`. -/
theorem C2_counterexample :
    (iterate_silence_segments ⟨700, 250, 250⟩ [(1000, 2000)] 3000 3000 false).2.2 = 1000 ∧
    (1000 : Int) ≠ 500 := by decide

/-- Claim C2 (amended): on `[(1000, 2000)]` with `threshold = 700`,
`padding_left = padding_right = 250`, `duration = 3000`, the materializing
walk produces exactly the keep segments `[0, 750)` and `[1750, 3000)` (and
the matching audio slices) and returns `silence_amount = 1000`. -/
theorem single_silence_example_plan :
    iterate_silence_segments ⟨700, 250, 250⟩ [(1000, 2000)] 3000 3000 false
      = ([(0, 750), (1750, 3000)], [(0, 750), (1750, 3000)], 1000) := by decide

/-- Claim C3, as stated, is false: with `padding_left = 6`,
`padding_right = 0`, silence list `[(0, 6), (6, 10)]` and `duration = 20`,
raising the threshold from `5` to `6` changes which silence is cut (the
first versus the second), and the removed amount increases from `6` to
`10`. -/
theorem C3_counterexample :
    (iterate_silence_segments ⟨5, 6, 0⟩ [(0, 6), (6, 10)] 20 20 true).2.2 = 6 ∧
    (iterate_silence_segments ⟨6, 6, 0⟩ [(0, 6), (6, 10)] 20 20 true).2.2 = 10 ∧
    ¬ ((10 : Int) ≤ 6) := by decide

/-- Claim C3 (amended): with `padding_left = 0` and
`padding_right ≤` the smaller threshold, increasing the threshold never
increases the returned `silence_amount`. -/
theorem silence_amount_threshold_antitone (t1 t2 pr : Int) (rs : List (Int × Int))
    (dur aL : Int)
    (hpr : 0 ≤ pr) (h1 : pr ≤ t1) (h12 : t1 ≤ t2) (hs : SortedFrom 0 rs) :
    (iterate_silence_segments ⟨t2, 0, pr⟩ rs dur aL true).2.2 ≤
      (iterate_silence_segments ⟨t1, 0, pr⟩ rs dur aL true).2.2 := by
  rw [iterate_amount, iterate_amount,
      foldl_amount_eq t2 pr hpr rs ⟨0, [], [], 0⟩ hs,
      foldl_amount_eq t1 pr hpr rs ⟨0, [], [], 0⟩ hs]
  have h := cutSum_antitone t1 t2 pr h1 h12 rs
  simpa using h

/-- Claim C3 witness: the amended theorem at thresholds `700 ≤ 900` on the
spec's boundary example. -/
theorem silence_amount_threshold_antitone_witness :
    (iterate_silence_segments ⟨900, 0, 250⟩ [(1000, 2000)] 3000 3000 true).2.2 ≤
      (iterate_silence_segments ⟨700, 0, 250⟩ [(1000, 2000)] 3000 3000 true).2.2 :=
  silence_amount_threshold_antitone 700 900 250 [(1000, 2000)] 3000 3000
    (by decide) (by decide) (by decide) (by decide)

/-- Claim C4, as stated, is false: with the non-negative configuration
`threshold = 0, padding_left = 0, padding_right = 250` and silence list
`[(1000, 1001)]`, the only loop iteration adds
`(1001 - 250) - 1000 = -249` to `silence_amount`, which decreases it, and
the returned `silence_amount` is `-249 < 0`. -/
theorem C4_counterexample :
    (iterate_silence_segments ⟨0, 0, 250⟩ [(1000, 1001)] 3000 3000 true).2.2 = -249 ∧
    (-249 : Int) < 0 := by decide

/-- Claim C4 (amended): when `padding_right ≤ silence_threshold`, every
loop iteration leaves `silence_amount` greater than or equal to its value
before the iteration, and the walk's returned `silence_amount` is `≥ 0` on
every input. -/
theorem silence_amount_never_decreases (cfg : Config)
    (hprt : cfg.padding_right ≤ cfg.silence_threshold) :
    (∀ (p : Bool) (st : WalkState) (r : Int × Int),
        st.silence_amount ≤ (step cfg p st r).silence_amount) ∧
    (∀ (rs : List (Int × Int)) (dur aL : Int) (p : Bool),
        0 ≤ (iterate_silence_segments cfg rs dur aL p).2.2) := by
  have hstep : ∀ (p : Bool) (st : WalkState) (r : Int × Int),
      st.silence_amount ≤ (step cfg p st r).silence_amount := by
    intro p st r
    rw [step_silence_amount]
    split
    · linarith [le_max_left st.last_end (r.1 - cfg.padding_left)]
    · exact le_refl _
  refine ⟨hstep, ?_⟩
  have hfold : ∀ (p : Bool) (rs : List (Int × Int)) (st : WalkState),
      st.silence_amount ≤ (List.foldl (step cfg p) st rs).silence_amount := by
    intro p rs
    induction rs with
    | nil => intro st; exact le_refl _
    | cons r rest ih => intro st; exact le_trans (hstep p st r) (ih _)
  intro rs dur aL p
  rw [iterate_amount]
  exact hfold p rs ⟨0, [], [], 0⟩

/-- Claim C4 witness: the amended theorem at the default configuration on
the spec's boundary example. -/
theorem silence_amount_never_decreases_witness :
    0 ≤ (iterate_silence_segments ⟨700, 250, 250⟩ [(1000, 2000)] 3000 3000 true).2.2 :=
  (silence_amount_never_decreases ⟨700, 250, 250⟩ (by decide)).2 [(1000, 2000)] 3000 3000 true

/-- Claim C5, as stated, is false: `iterate_silence_segments` contains no
precondition check and no raising statement, so on the malformed input
`duration = 500 <` interval end `2000` (default configuration) it does not
fail fast but silently returns a full plan — one whose second keep segment
`(1750, 500)` has negative length, an inconsistent plan. -/
theorem C5_counterexample :
    iterate_silence_segments ⟨700, 250, 250⟩ [(1000, 2000)] 500 500 false
      = ([(0, 750), (1750, 500)], [(0, 750), (1750, 500)], 1000) ∧
    ¬ SegsOK 500 [((0 : Int), (750 : Int)), (1750, 500)] := by decide

/-- Claim C5 (amended): the planning walk performs no precondition
validation: on each kind of malformed input named by the claim (an
unsorted silence list, a negative padding, a negative threshold, a
duration smaller than an interval end) it still returns segments and a
`silence_amount` computed by the same arithmetic, never an error. -/
theorem no_precondition_validation :
    (iterate_silence_segments ⟨700, 250, 250⟩ [(2000, 3000), (0, 500)] 4000 4000 true).2.2
      = 1000 ∧
    (iterate_silence_segments ⟨700, -100, 0⟩ [(1000, 2000)] 3000 3000 true).2.2 = 900 ∧
    (iterate_silence_segments ⟨-1, 0, 0⟩ [(1000, 1000)] 3000 3000 true).2.2 = 0 ∧
    (iterate_silence_segments ⟨700, 250, 250⟩ [(1000, 2000)] 500 500 true).2.2 = 1000 := by
  decide

/-- Claim C6, as stated, is false: the cleanup block of
`edit_video_and_audio` is a trailing `try`, not a `finally`, so when a
collaborator step during materialization fails (here
`concatenate_videoclips`, with the user having accepted), the exception
propagates and removal of the temporary audio files is never attempted. -/
theorem C6_counterexample :
    edit_video_and_audio ⟨false, false, true, true, false, false, false, false⟩
      = ⟨false, false, some .concatClips⟩ ∧
    (edit_video_and_audio
        ⟨false, false, true, true, false, false, false, false⟩).cleanupAttempted = false := by
  decide

/-- Claim C6 (amended): removal of the temporary audio files is attempted
at the end of the run on the decline path and on the fully successful
materialization path, and a failure of the removal itself only produces a
warning, never a propagated error; but when a collaborator step during
materialization fails, the function aborts before the cleanup block:
removal is not attempted and the collaborator error propagates. -/
theorem cleanup_reachability (u rf : Bool) :
    edit_video_and_audio ⟨false, false, u, false, false, false, false, rf⟩
      = ⟨true, rf, none⟩ ∧
    edit_video_and_audio ⟨false, false, true, true, false, false, false, rf⟩
      = ⟨false, false, some .concatClips⟩ := by
  cases u <;> cases rf <;> decide

/-- Claim C7, as stated, is false: for the single silence `(1000, 1300)`
with `threshold = 700, padding_left = 250, padding_right = 250,
duration = 3000`, the candidate cut length is `1300 - 750 = 550 ≤ 700`, no
cut happens and `silence_amount = 0`, but the materializing run emits TWO
keep segments `[0, 750)` and `[750, 3000)`, not the single segment
`[0, 3000)`. -/
theorem C7_counterexample :
    (iterate_silence_segments ⟨700, 250, 250⟩ [(1000, 1300)] 3000 3000 false).1
      = [(0, 750), (750, 3000)] ∧
    [((0 : Int), (750 : Int)), (750, 3000)] ≠ [(0, 3000)] := by decide

/-- Claim C7 (amended): for every duration and any single silence
`(s, e)` whose candidate cut length `e - max 0 (s - padding_left)` is at
most the threshold, no cut is performed: `silence_amount = 0` and the
materializing run emits the adjacent segments `[0, c)` and `[c, duration)`
for `c = max 0 (s - padding_left)` (just `[0, duration)` when `c = 0`),
which tile the whole timeline — nothing is removed. -/
theorem short_silence_no_cut (dur aL s e pl pr t : Int)
    (hshort : e - max 0 (s - pl) ≤ t) :
    (iterate_silence_segments ⟨t, pl, pr⟩ [(s, e)] dur aL false).1
      = (if 0 < max 0 (s - pl)
         then [(0, max 0 (s - pl)), (max 0 (s - pl), dur)]
         else [(max 0 (s - pl), dur)]) ∧
    (iterate_silence_segments ⟨t, pl, pr⟩ [(s, e)] dur aL false).2.2 = 0 := by
  have hnc : ¬ (t < e - max (0 : Int) (s - pl)) := not_lt.mpr hshort
  by_cases hpos : 0 < max (0 : Int) (s - pl)
  · constructor
    · rw [if_pos hpos]
      simp [iterate_silence_segments, step, hnc, hpos]
    · simp [iterate_silence_segments, step, hnc]
  · constructor
    · rw [if_neg hpos]
      simp [iterate_silence_segments, step, hnc, hpos]
    · simp [iterate_silence_segments, step, hnc]

/-- Claim C7 witness: the amended theorem at the spec's short-silence
boundary example `(1000, 1300)`, `threshold = 700`, paddings `250`. -/
theorem short_silence_no_cut_witness :
    (iterate_silence_segments ⟨700, 250, 250⟩ [(1000, 1300)] 3000 3000 false).1
      = (if 0 < max 0 ((1000 : Int) - 250)
         then [(0, max 0 ((1000 : Int) - 250)), (max 0 ((1000 : Int) - 250), 3000)]
         else [(max 0 ((1000 : Int) - 250), 3000)]) ∧
    (iterate_silence_segments ⟨700, 250, 250⟩ [(1000, 1300)] 3000 3000 false).2.2 = 0 :=
  short_silence_no_cut 3000 3000 1000 1300 250 250 700 (by decide)

/-- Claim C8: for an empty silence list, the materializing walk emits
exactly the one keep segment `[0, duration)` and the one trailing audio
slice `[0, audio_len)` — both appended unconditionally, even when
zero-length — and returns `silence_amount = 0`. -/
theorem empty_silence_list_plan (cfg : Config) (dur aL : Int) :
    iterate_silence_segments cfg [] dur aL false = ([(0, dur)], [(0, aL)], 0) := rfl

/-- Claim C9: the planning walk is deterministic: two non-materializing
runs on identical inputs return identical `silence_amount` values and
identical segment lists. -/
theorem deterministic_plan (cfg cfg' : Config) (rs rs' : List (Int × Int))
    (dur dur' aL aL' : Int)
    (h1 : cfg = cfg') (h2 : rs = rs') (h3 : dur = dur') (h4 : aL = aL') :
    (iterate_silence_segments cfg rs dur aL true).2.2
        = (iterate_silence_segments cfg' rs' dur' aL' true).2.2 ∧
    (iterate_silence_segments cfg rs dur aL true).1
        = (iterate_silence_segments cfg' rs' dur' aL' true).1 := by
  subst h1 h2 h3 h4
  exact ⟨rfl, rfl⟩

/-- Claim C9 witness: determinism at the spec's boundary example. -/
theorem deterministic_plan_witness :
    (iterate_silence_segments ⟨700, 250, 250⟩ [(1000, 2000)] 3000 3000 true).2.2
        = (iterate_silence_segments ⟨700, 250, 250⟩ [(1000, 2000)] 3000 3000 true).2.2 ∧
    (iterate_silence_segments ⟨700, 250, 250⟩ [(1000, 2000)] 3000 3000 true).1
        = (iterate_silence_segments ⟨700, 250, 250⟩ [(1000, 2000)] 3000 3000 true).1 :=
  deterministic_plan ⟨700, 250, 250⟩ ⟨700, 250, 250⟩ [(1000, 2000)] [(1000, 2000)]
    3000 3000 3000 3000 rfl rfl rfl rfl

/-- Claim C10: for every input, the `silence_amount` returned by the
non-materializing (pretend) pass equals the one returned by the
materializing pass: the pretend flag gates only clip and audio
accumulation, never the `silence_amount` computation. -/
theorem pretend_amount_agrees (cfg : Config) (rs : List (Int × Int)) (dur aL : Int) :
    (iterate_silence_segments cfg rs dur aL true).2.2
      = (iterate_silence_segments cfg rs dur aL false).2.2 := by
  rw [iterate_amount, iterate_amount]
  exact foldl_pretend_agnostic cfg true false rs ⟨0, [], [], 0⟩ ⟨0, [], [], 0⟩ rfl rfl

end AutoEditor
